import Mathlib

/-!
Verification of the Ed448 / Ed448ph signature core in
`subsys/nrf_security/src/drivers/cracen/cracenpsa/src/ed448.c`.

The C file orchestrates SHAKE256 hashing, scalar decoding and curve
operations over raw byte buffers.  We embed the byte buffers as
`List Nat` (one `Nat` per byte) and model each pointer write of the C
code as an explicit `writeAt` on the buffer, so that the memory layout
(the `area_1` / `area_2` / `area_4` aliasing of `workmem`) is preserved
faithfully.  The external primitives (SHAKE256, `sx_ed448_ptmult`,
`sx_ed448_sign`, `sx_ed448_verify`, which are not part of this file's
sources) are threaded through a record of functions `Ed448Prims`; a
concrete instance `modelPrims` models them from the spec's contracts.
-/

/-- The `SX_OK` status code of the silexpk library: success is `0`. -/
def SX_OK : Int := 0

/-- Constant `SX_ED448_SZ`: size of an encoded Ed448 point / scalar (57 bytes). -/
def SX_ED448_SZ : Nat := 57

/-- Constant `SX_ED448_DGST_SZ`: size of a SHAKE256-114 digest (114 bytes). -/
def SX_ED448_DGST_SZ : Nat := 114

/-- Constant `SX_ED448_PT_SZ`: size of an encoded Ed448 point (57 bytes). -/
def SX_ED448_PT_SZ : Nat := 57

/-- Constant `AREA2_MEM_OFFSET` from ed448.c: offset of `area_2` inside `workmem`. -/
def AREA2_MEM_OFFSET : Nat := 57

/-- Constant `AREA4_MEM_OFFSET` from ed448.c: offset of `area_4` inside `workmem`. -/
def AREA4_MEM_OFFSET : Nat := 171

/-- Overwrite the bytes of `w` starting at offset `off` with `data`,
leaving the rest unchanged (the model of a C write through a pointer
`w + off`). -/
def writeAt (w : List Nat) (off : Nat) (data : List Nat) : List Nat :=
  w.take off ++ data ++ w.drop (off + data.length)

/-- Read `len` bytes of `w` starting at offset `off` (the model of a C
read through a pointer `w + off` with an explicit length). -/
def subBuf (w : List Nat) (off len : Nat) : List Nat :=
  (w.drop off).take len

/-- Decode a little-endian byte list into a natural number (the number a
silexpk operand buffer denotes). -/
def decodeLE (l : List Nat) : Nat :=
  l.foldr (fun b acc => b + 256 * acc) 0

/-- Encode `n` as `k` little-endian bytes (truncating above `256^k`). -/
def encodeLE : Nat → Nat → List Nat
  | 0, _ => []
  | k + 1, n => n % 256 :: encodeLE k (n / 256)

/-- The 57-byte little-endian encoding, the wire format of Ed448 field
elements and scalars. -/
def encodeLE57 (n : Nat) : List Nat := encodeLE 57 n

/-- The Ed448 group order `L` (RFC 8032): the prime order of the
subgroup generated by the base point `B`; the cofactor is 8. -/
def L : Nat :=
  2 ^ 446 - 13818066809895115352007386748515426880336692474882178609894547503885

/-- The `dom4` domain-separation constant of ed448.c: the ASCII string
"SigEd448" (with PHflag 1 and context size 0 appended by convention of
that file). -/
def dom4 : List Nat := [0x53, 0x69, 0x67, 0x45, 0x64, 0x34, 0x34, 0x38]

/-- Modelled from the spec: `decode_scalar_448` (declared in
`cracen/ec_helpers.h`, its definition is not among the sources).  Per
spec §4.1 / RFC 8032 §5.2.5 it clamps a 57-byte buffer in place: the
two low bits of byte 0 are cleared, bit 447 (the high bit of byte 55)
is forced to 1, and the last byte (byte 56) is cleared. -/
def decode_scalar_448 (k : List Nat) : List Nat :=
  ((k.set 0 (k.getD 0 0 &&& 0xFC)).set 55 (k.getD 55 0 ||| 0x80)).set 56 0

/-- The external primitives consumed by ed448.c, as a record of pure
functions.  Each returns the C `int` status together with the bytes it
writes to its output buffer on success (per spec §4.2/§7 the
primitives produce no partial output on failure, so a failing call
leaves its output buffer unchanged).
`hashAll` models `cracen_hash_all_inputs`/`cracen_hash_input` with
`sxhashalg_shake256_114` (114-byte SHAKE256 output over the
concatenation of the input list); `ptmult` models `sx_ed448_ptmult`
(fixed-base scalar multiplication of a 114-byte wide scalar, returning
the 57-byte encoded point); `signCombine` models `sx_ed448_sign`
(given `k`, `r` and the secret scalar `s`, returns the 57-byte
encoding of `(r + k*s) mod L`); `verifyCheck` models
`sx_ed448_verify` (given the challenge digest, the public key point,
`S` and `R`, checks `[S]B == R + [k]A`). -/
structure Ed448Prims where
  hashAll : List (List Nat) → Int × List Nat
  ptmult : List Nat → Int × List Nat
  signCombine : List Nat → List Nat → List Nat → Int × List Nat
  verifyCheck : List Nat → List Nat → List Nat → List Nat → Int

/-- The hash-input list built by `ed448_calculate_r` (ed448.c lines
28-38): `hash_array = {dom4, workmem, message}` with lengths
`{8, SX_ED448_SZ, message_length}`, of which the code hashes
`hash_array + offset` with `input_count = 3 - offset` entries and
`offset = prehash ? 0 : 1`; `workmem` there points at the second half
of the private-key digest (the prefix). -/
def ed448_calculate_r_inputs (workmem message : List Nat) (prehash : Bool) :
    List (List Nat) :=
  List.drop (if prehash then 0 else 1) [dom4, workmem.take 57, message]

/-- The hash call of `ed448_calculate_r`; in the C code the 114-byte
output is written at `workmem + SX_ED448_DGST_SZ` of its `workmem`
argument (`area_2`), i.e. at `area_4` of the signing work buffer — the
caller below performs that placement. -/
def ed448_calculate_r (P : Ed448Prims) (workmem message : List Nat)
    (prehash : Bool) : Int × List Nat :=
  P.hashAll (ed448_calculate_r_inputs workmem message prehash)

/-- The hash-input list built by `ed448_calculate_k` (ed448.c lines
40-50): `hash_array = {dom4, point_r, workmem, message}` with lengths
`{8, SX_ED448_SZ, SX_ED448_SZ, message_length}`, hashed from index
`offset = prehash ? 0 : 1` on (`input_count = 4 - offset`); `workmem`
there points at the encoded public key `A`. -/
def ed448_calculate_k_inputs (point_r workmem message : List Nat)
    (prehash : Bool) : List (List Nat) :=
  List.drop (if prehash then 0 else 1) [dom4, point_r.take 57, workmem.take 57, message]

/-- The hash call of `ed448_calculate_k`; the 114-byte output is
written at its `workmem` argument (`area_2`), done by the caller
below. -/
def ed448_calculate_k (P : Ed448Prims) (workmem point_r message : List Nat)
    (prehash : Bool) : Int × List Nat :=
  P.hashAll (ed448_calculate_k_inputs point_r workmem message prehash)

/-- Shallow embedding of `ed448_sign_internal` (ed448.c lines 52-124).
`workmem` and `pnt_r` are the initial (indeterminate) contents of the
two stack buffers `workmem[5 * SX_ED448_SZ]` and
`pnt_r[SX_ED448_DGST_SZ]`; the result is the returned status, the
caller's signature buffer, and the final contents of `workmem` and
`pnt_r` at the return point (so that zeroization can be stated). -/
def ed448_sign_internal (P : Ed448Prims) (priv_key signature message : List Nat)
    (prehash : Bool) (workmem pnt_r : List Nat) :
    Int × List Nat × List Nat × List Nat :=
  -- status = cracen_hash_input(priv_key, SX_ED448_SZ, shake256_114, area_1)
  let r1 := P.hashAll [priv_key.take 57]
  if r1.1 ≠ SX_OK then (r1.1, signature, workmem, pnt_r) else
  let w1 := writeAt workmem 0 r1.2
  -- status = ed448_calculate_r(area_2, message, message_length, prehash)
  let r2 := ed448_calculate_r P (subBuf w1 57 57) message prehash
  if r2.1 ≠ SX_OK then (r2.1, signature, w1, pnt_r) else
  -- output written at area_2 + SX_ED448_DGST_SZ = AREA4_MEM_OFFSET
  let w2 := writeAt w1 171 r2.2
  -- status = sx_ed448_ptmult(area_4, pnt_r)
  let r3 := P.ptmult (subBuf w2 171 114)
  if r3.1 ≠ SX_OK then (r3.1, signature, w2, pnt_r) else
  let p1 := writeAt pnt_r 0 r3.2
  -- decode_scalar_448(area_1), in place on the first 57 bytes
  let w3 := writeAt w2 0 (decode_scalar_448 (subBuf w2 0 57))
  -- safe_memset(area_2, sizeof(workmem) - SX_ED448_SZ, 0, SX_ED448_SZ)
  let w4 := writeAt w3 57 (List.replicate 57 0)
  -- status = sx_ed448_ptmult(area_1, area_2)
  let r4 := P.ptmult (subBuf w4 0 114)
  if r4.1 ≠ SX_OK then (r4.1, signature, w4, p1) else
  let w5 := writeAt w4 57 r4.2
  -- status = ed448_calculate_k(area_2, pnt_r, message, message_length, prehash)
  let r5 := ed448_calculate_k P (subBuf w5 57 57) (subBuf p1 0 57) message prehash
  if r5.1 ≠ SX_OK then (r5.1, signature, w5, p1) else
  let w6 := writeAt w5 57 r5.2
  -- status = sx_ed448_sign(area_2, area_4, area_1, pnt_r + SX_ED448_PT_SZ)
  let r6 := P.signCombine (subBuf w6 57 114) (subBuf w6 171 114) (subBuf w6 0 57)
  if r6.1 ≠ SX_OK then (r6.1, signature, w6, p1) else
  let p2 := writeAt p1 57 r6.2
  -- memcpy(signature, pnt_r, SX_ED448_DGST_SZ); safe_memzero(workmem, ...)
  (r6.1, writeAt signature 0 (subBuf p2 0 114), List.replicate (5 * 57) 0, p2)

/-- Shallow embedding of `cracen_ed448_sign` (ed448.c lines 126-130). -/
def cracen_ed448_sign (P : Ed448Prims) (priv_key signature message : List Nat)
    (workmem pnt_r : List Nat) : Int × List Nat × List Nat × List Nat :=
  ed448_sign_internal P priv_key signature message false workmem pnt_r

/-- Shallow embedding of `cracen_ed448ph_sign` (ed448.c lines 132-150).
When `is_message` is true the message is first hashed into the local
`hashedmessage[SX_ED448_DGST_SZ]`; otherwise the caller's buffer is
passed through unchanged, whatever its length. -/
def cracen_ed448ph_sign (P : Ed448Prims) (priv_key signature message : List Nat)
    (is_message : Bool) (workmem pnt_r : List Nat) :
    Int × List Nat × List Nat × List Nat :=
  if is_message then
    let r1 := P.hashAll [message]
    if r1.1 ≠ SX_OK then (r1.1, signature, workmem, pnt_r) else
    ed448_sign_internal P priv_key signature r1.2 true workmem pnt_r
  else
    ed448_sign_internal P priv_key signature message true workmem pnt_r

/-- The hash-input list built inline by `ed448_verify_internal`
(ed448.c lines 161-165): `hash_array = {dom4, signature, pub_key,
message}` with lengths `{8, ed448_sz, ed448_sz, message_length}`,
hashed from index `offset = prehash ? 0 : 1` on. -/
def ed448_verify_hash_inputs (pub_key message signature : List Nat)
    (prehash : Bool) : List (List Nat) :=
  List.drop (if prehash then 0 else 1)
    [dom4, signature.take 57, pub_key.take 57, message]

/-- Shallow embedding of `ed448_verify_internal` (ed448.c lines
152-175); returns the status (`SX_OK` means the signature is valid). -/
def ed448_verify_internal (P : Ed448Prims) (pub_key message signature : List Nat)
    (prehash : Bool) : Int :=
  let r1 := P.hashAll (ed448_verify_hash_inputs pub_key message signature prehash)
  if r1.1 ≠ SX_OK then r1.1 else
  P.verifyCheck r1.2 (pub_key.take 57) (subBuf signature 57 57) (signature.take 57)

/-- Shallow embedding of `cracen_ed448_verify` (ed448.c lines 177-181). -/
def cracen_ed448_verify (P : Ed448Prims) (pub_key message signature : List Nat) :
    Int :=
  ed448_verify_internal P pub_key message signature false

/-- Shallow embedding of `cracen_ed448ph_verify` (ed448.c lines 183-200). -/
def cracen_ed448ph_verify (P : Ed448Prims) (pub_key message signature : List Nat)
    (is_message : Bool) : Int :=
  if is_message then
    let r1 := P.hashAll [message]
    if r1.1 ≠ SX_OK then r1.1 else
    ed448_verify_internal P pub_key r1.2 signature true
  else
    ed448_verify_internal P pub_key message signature true

/-- Shallow embedding of `cracen_ed448_create_pubkey` (ed448.c lines
202-234).  `digest` is the initial content of the local
`digest[SX_ED448_DGST_SZ]` buffer; `pub_key_A` aliases `digest + 57`.
The result is the status, the caller's `pub_key` buffer and the final
content of `digest` at the return point. -/
def cracen_ed448_create_pubkey (P : Ed448Prims) (priv_key pub_key digest : List Nat) :
    Int × List Nat × List Nat :=
  let r1 := P.hashAll [priv_key.take 57]
  if r1.1 ≠ SX_OK then (r1.1, pub_key, digest) else
  let d1 := writeAt digest 0 r1.2
  -- decode_scalar_448(digest), in place on the first 57 bytes
  let d2 := writeAt d1 0 (decode_scalar_448 (subBuf d1 0 57))
  -- safe_memset(pub_key_A, SX_ED448_SZ, 0, SX_ED448_SZ)
  let d3 := writeAt d2 57 (List.replicate 57 0)
  -- status = sx_ed448_ptmult(digest, pub_key_A); the hardware reads the
  -- whole 114-byte input before writing the result at digest + 57
  let r2 := P.ptmult (subBuf d3 0 114)
  if r2.1 ≠ SX_OK then (r2.1, pub_key, d3) else
  let d4 := writeAt d3 57 r2.2
  -- memcpy(pub_key, pub_key_A, SX_ED448_SZ); safe_memzero(digest, ...)
  (r2.1, writeAt pub_key 0 (subBuf d4 57 57), List.replicate 114 0)

/-- Modelled from the spec: `sx_ed448_ptmult` (silexpk, not among the
sources).  Spec §6: `curve_scalar_mult_base(scalar: wide buffer) ->
point`, the multiplier being the raw 114-byte digest "reduced mod L
internally by the multiply" (spec §4.3 step 3).  In this development
the prime-order subgroup generated by `B` is represented by its
scalars: the point `[x]B` is represented by `x mod L` and its 57-byte
wire encoding by `encodeLE57 (x mod L)`. -/
def sx_ed448_ptmult (d : List Nat) : Int × List Nat :=
  (SX_OK, encodeLE57 (decodeLE d % L))

/-- Modelled from the spec: `sx_ed448_sign` (silexpk, not among the
sources).  Spec §6: `scalar_field_combine(k, s, r)` computes
`(r + k*s) mod L` and encodes it (spec §4.3 step 8). -/
def sx_ed448_sign (k r s : List Nat) : Int × List Nat :=
  (SX_OK, encodeLE57 ((decodeLE r + decodeLE k * decodeLE s) % L))

/-- Modelled from the spec: `sx_ed448_verify` (silexpk, not among the
sources).  Spec §4.4 step 3: checks `[S]B == R + [k]A`; in the
scalar representation of the subgroup this is
`S mod L = (dlog R + k * dlog A) mod L`, where the discrete log of an
encoded point is its decoded value mod `L`.  Returns `SX_OK` iff the
equation holds. -/
def sx_ed448_verify (k pubkey s r : List Nat) : Int :=
  if decodeLE s % L = (decodeLE r % L + (decodeLE k % L) * (decodeLE pubkey % L)) % L
  then SX_OK else -1

/-- The primitives record with a given (total, deterministic) SHAKE256
function and the spec-modelled curve primitives. -/
def modelPrims (hash : List (List Nat) → List Nat) : Ed448Prims where
  hashAll l := (SX_OK, hash l)
  ptmult := sx_ed448_ptmult
  signCombine := sx_ed448_sign
  verifyCheck := sx_ed448_verify

/-- A primitives instance whose calls all succeed with small constant
outputs; used to exercise the success paths of the embedded code on
concrete inputs. -/
def okPrims : Ed448Prims where
  hashAll _ := (SX_OK, List.replicate 114 1)
  ptmult _ := (SX_OK, List.replicate 57 2)
  signCombine _ _ _ := (SX_OK, List.replicate 57 3)
  verifyCheck _ _ _ _ := SX_OK

/-- A primitives instance modelling a SHAKE engine fault during the
nonce computation: the single-input hash of the private key succeeds
with a nonzero digest, while every multi-input hash call reports a
failure status. -/
def failSecondHashPrims : Ed448Prims where
  hashAll l := if l.length == 1 then (SX_OK, List.replicate 114 1)
               else (-1, List.replicate 114 0)
  ptmult _ := (SX_OK, List.replicate 57 2)
  signCombine _ _ _ := (SX_OK, List.replicate 57 3)
  verifyCheck _ _ _ _ := SX_OK

/-- The secret scalar `s` of a seed: the clamped first half of the
114-byte private-key digest. -/
def specScalar (hash : List (List Nat) → List Nat) (sk : List Nat) : List Nat :=
  decode_scalar_448 (subBuf (hash [sk.take 57]) 0 57)

/-- The nonce digest `r` of a signing call: SHAKE256-114 over the
input list of `ed448_calculate_r` applied to the digest's second half
and the message. -/
def specRdigest (hash : List (List Nat) → List Nat) (sk message : List Nat)
    (prehash : Bool) : List Nat :=
  hash (ed448_calculate_r_inputs (subBuf (hash [sk.take 57]) 57 57) message prehash)

/-- The encoded point `R = [r]B` of a signing call. -/
def specRenc (hash : List (List Nat) → List Nat) (sk message : List Nat)
    (prehash : Bool) : List Nat :=
  encodeLE57 (decodeLE (specRdigest hash sk message prehash) % L)

/-- The encoded public key `A = [s]B`: the clamped scalar is widened
to 114 bytes with zeros (the `safe_memset` of area_2) before the
fixed-base multiplication. -/
def specAenc (hash : List (List Nat) → List Nat) (sk : List Nat) : List Nat :=
  encodeLE57 (decodeLE (specScalar hash sk ++ List.replicate 57 0) % L)

/-- The challenge digest `k` of a signing call: SHAKE256-114 over the
input list of `ed448_calculate_k` applied to `R`, `A` and the
message. -/
def specKdigest (hash : List (List Nat) → List Nat) (sk message : List Nat)
    (prehash : Bool) : List Nat :=
  hash (ed448_calculate_k_inputs (specRenc hash sk message prehash)
    (specAenc hash sk) message prehash)

/-- The encoded scalar `S = (r + k*s) mod L`, second half of the
signature. -/
def specSenc (hash : List (List Nat) → List Nat) (sk message : List Nat)
    (prehash : Bool) : List Nat :=
  encodeLE57 ((decodeLE (specRdigest hash sk message prehash) +
    decodeLE (specKdigest hash sk message prehash) *
    decodeLE (specScalar hash sk)) % L)

theorem length_writeAt {w data : List Nat} {off : Nat}
    (h : off + data.length ≤ w.length) :
    (writeAt w off data).length = w.length := by
  simp [writeAt]
  omega

theorem subBuf_zero_length {w : List Nat} {n : Nat} (h : w.length = n) :
    subBuf w 0 n = w := by
  simp [subBuf, ← h]

theorem take_length_eq {w : List Nat} {n : Nat} (h : w.length = n) :
    w.take n = w := by
  rw [← h, List.take_length]

theorem writeAt_all {w data : List Nat} {n : Nat}
    (h1 : w.length = n) (h2 : data.length = n) :
    writeAt w 0 data = data := by
  simp [writeAt, h2, List.drop_eq_nil_of_le (by omega : w.length ≤ n)]

theorem subBuf_writeAt_within {w data : List Nat} {off off2 len : Nat}
    (h1 : off ≤ off2) (h2 : off2 + len ≤ off + data.length)
    (h3 : off ≤ w.length) :
    subBuf (writeAt w off data) off2 len = subBuf data (off2 - off) len := by
  have htk : (w.take off).length = off := by simp; omega
  simp only [subBuf, writeAt, List.append_assoc, List.drop_append_eq_append_drop, htk,
    List.take_append_eq_append_take, List.length_drop]
  rw [List.drop_eq_nil_of_le (by omega : (w.take off).length ≤ off2)]
  have e1 : off - off2 = 0 := by omega
  have e2 : len - (off - off2) - (data.length - (off2 - off)) = 0 := by omega
  simp [e1, e2]
  omega

theorem subBuf_writeAt_below {w data : List Nat} {off off2 len : Nat}
    (h1 : off2 + len ≤ off) (h3 : off ≤ w.length) :
    subBuf (writeAt w off data) off2 len = subBuf w off2 len := by
  have htk : (w.take off).length = off := by simp; omega
  simp only [subBuf, writeAt, List.append_assoc, List.drop_append_eq_append_drop, htk,
    List.take_append_eq_append_take, List.length_drop]
  have e1 : len - (off - off2) = 0 := by omega
  simp [e1, List.drop_take, List.take_take, Nat.min_eq_left (by omega : len ≤ off - off2)]

theorem subBuf_writeAt_above {w data : List Nat} {off off2 len : Nat}
    (h1 : off + data.length ≤ off2) (h3 : off ≤ w.length) :
    subBuf (writeAt w off data) off2 len = subBuf w off2 len := by
  have htk : (w.take off).length = off := by simp; omega
  simp only [subBuf, writeAt, List.append_assoc, List.drop_append_eq_append_drop, htk,
    List.take_append_eq_append_take, List.length_drop]
  have d1 : List.drop off2 (List.take off w) = [] := List.drop_eq_nil_of_le (by simp; omega)
  have d2 : List.drop (off2 - off) data = [] := List.drop_eq_nil_of_le (by omega)
  rw [d1, d2, List.drop_drop]
  have e3 : off + data.length + (off2 - off - data.length) = off2 := by omega
  have e4 : len - (off - off2) - (data.length - (off2 - off)) = len := by omega
  simp [e3, e4]

theorem subBuf_split {w : List Nat} {off : Nat} (a b : Nat) :
    subBuf w off (a + b) = subBuf w off a ++ subBuf w (off + a) b := by
  simp only [subBuf, List.take_add, List.drop_drop]

theorem length_encodeLE (k n : Nat) : (encodeLE k n).length = k := by
  induction k generalizing n with
  | zero => rfl
  | succ k ih => simp [encodeLE, ih]

theorem length_encodeLE57 (n : Nat) : (encodeLE57 n).length = 57 :=
  length_encodeLE 57 n

theorem decodeLE_nil : decodeLE [] = 0 := rfl

theorem decodeLE_cons (b : Nat) (l : List Nat) :
    decodeLE (b :: l) = b + 256 * decodeLE l := rfl

theorem decodeLE_append (a b : List Nat) :
    decodeLE (a ++ b) = decodeLE a + 256 ^ a.length * decodeLE b := by
  induction a with
  | nil => simp [decodeLE]
  | cons x t ih =>
      simp only [List.cons_append, decodeLE_cons, ih, List.length_cons]
      ring

theorem decodeLE_replicate_zero (n : Nat) :
    decodeLE (List.replicate n 0) = 0 := by
  induction n with
  | zero => rfl
  | succ n ih => simpa [List.replicate_succ, decodeLE_cons] using ih

theorem decodeLE_encodeLE (k n : Nat) :
    decodeLE (encodeLE k n) = n % 256 ^ k := by
  induction k generalizing n with
  | zero => simp [encodeLE, decodeLE, Nat.mod_one]
  | succ k ih =>
      simp only [encodeLE, decodeLE_cons, ih]
      rw [pow_succ, Nat.mul_comm (256 ^ k) 256, Nat.mod_mul]

theorem decodeLE_encodeLE57 {n : Nat} (h : n < 256 ^ 57) :
    decodeLE (encodeLE57 n) = n := by
  rw [encodeLE57, decodeLE_encodeLE, Nat.mod_eq_of_lt h]

theorem L_pos : 0 < L := by norm_num [L]

theorem L_lt : L < 256 ^ 57 := by norm_num [L]

theorem length_decode_scalar_448 (k : List Nat) :
    (decode_scalar_448 k).length = k.length := by
  simp [decode_scalar_448]

theorem subBuf_0_114 (w : List Nat) :
    subBuf w 0 114 = subBuf w 0 57 ++ subBuf w 57 57 := by
  have h := @subBuf_split w 0 57 57
  simpa using h

theorem writeAt_full {w data : List Nat} (h : w.length = data.length) :
    writeAt w 0 data = data := by
  have hd : w.drop (0 + data.length) = [] := List.drop_eq_nil_of_le (by omega)
  simp [writeAt, hd]
  omega

theorem sign_internal_model (hash : List (List Nat) → List Nat)
    (hl : ∀ l, (hash l).length = 114)
    (sk sig m : List Nat) (ph : Bool) (w p : List Nat)
    (hs : sig.length = 114) (hw : w.length = 285) (hp : p.length = 114) :
    ed448_sign_internal (modelPrims hash) sk sig m ph w p =
      (SX_OK, specRenc hash sk m ph ++ specSenc hash sk m ph,
       List.replicate 285 0,
       writeAt (writeAt p 0 (specRenc hash sk m ph)) 57 (specSenc hash sk m ph)) := by
  simp only [ed448_sign_internal, ed448_calculate_r, ed448_calculate_k, modelPrims,
    sx_ed448_ptmult, sx_ed448_sign, SX_OK, ne_eq, not_true_eq_false, if_false, reduceIte]
  have hd1 : (hash [sk.take 57]).length = 114 := hl _
  set d1 : List Nat := hash [sk.take 57] with hd1e
  have hw1 : (writeAt w 0 d1).length = 285 := by rw [length_writeAt (by omega)]; exact hw
  set w1 : List Nat := writeAt w 0 d1 with hw1e
  have e1 : subBuf w1 57 57 = subBuf d1 57 57 := by
    rw [hw1e, subBuf_writeAt_within (by omega) (by omega) (by omega)]
  rw [e1]
  have hrd : (hash (ed448_calculate_r_inputs (subBuf d1 57 57) m ph)).length = 114 := hl _
  set rd : List Nat := hash (ed448_calculate_r_inputs (subBuf d1 57 57) m ph) with hrde
  have hw2 : (writeAt w1 171 rd).length = 285 := by rw [length_writeAt (by omega)]; exact hw1
  set w2 : List Nat := writeAt w1 171 rd with hw2e
  have e2 : subBuf w2 171 114 = rd := by
    rw [hw2e, subBuf_writeAt_within (by omega) (by omega) (by omega)]
    simpa using subBuf_zero_length hrd
  rw [e2]
  have e3 : subBuf w2 0 57 = subBuf d1 0 57 := by
    rw [hw2e, subBuf_writeAt_below (by omega) (by omega), hw1e,
        subBuf_writeAt_within (by omega) (by omega) (by omega)]
  rw [e3]
  have hR : (encodeLE57 (decodeLE rd % L)).length = 57 := length_encodeLE57 _
  set R : List Nat := encodeLE57 (decodeLE rd % L) with hRe
  have hcl : (decode_scalar_448 (subBuf d1 0 57)).length = 57 := by
    rw [length_decode_scalar_448]; simp [subBuf, hd1]
  set cl : List Nat := decode_scalar_448 (subBuf d1 0 57) with hcle
  have hp1 : (writeAt p 0 R).length = 114 := by rw [length_writeAt (by omega)]; exact hp
  set p1 : List Nat := writeAt p 0 R with hp1e
  have hw3 : (writeAt w2 0 cl).length = 285 := by rw [length_writeAt (by omega)]; exact hw2
  set w3 : List Nat := writeAt w2 0 cl with hw3e
  have hw4 : (writeAt w3 57 (List.replicate 57 0)).length = 285 := by
    rw [length_writeAt (by simp [hw3])]; exact hw3
  set w4 : List Nat := writeAt w3 57 (List.replicate 57 0) with hw4e
  have e4 : subBuf w4 0 114 = cl ++ List.replicate 57 0 := by
    rw [subBuf_0_114, hw4e]
    congr 1
    · rw [subBuf_writeAt_below (by omega) (by omega), hw3e,
          subBuf_writeAt_within (by omega) (by omega) (by omega)]
      simpa using subBuf_zero_length hcl
    · rw [subBuf_writeAt_within (by omega) (by simp) (by omega)]
      simpa using subBuf_zero_length (by simp : (List.replicate 57 (0:Nat)).length = 57)
  rw [e4]
  have hav : (encodeLE57 (decodeLE (cl ++ List.replicate 57 0) % L)).length = 57 :=
    length_encodeLE57 _
  set av : List Nat := encodeLE57 (decodeLE (cl ++ List.replicate 57 0) % L) with have2
  have hw5 : (writeAt w4 57 av).length = 285 := by rw [length_writeAt (by omega)]; exact hw4
  set w5 : List Nat := writeAt w4 57 av with hw5e
  have e5 : subBuf w5 57 57 = av := by
    rw [hw5e, subBuf_writeAt_within (by omega) (by omega) (by omega)]
    simpa using subBuf_zero_length hav
  rw [e5]
  have e6 : subBuf p1 0 57 = R := by
    rw [hp1e, subBuf_writeAt_within (by omega) (by omega) (by omega)]
    simpa using subBuf_zero_length hR
  rw [e6]
  have hkd : (hash (ed448_calculate_k_inputs R av m ph)).length = 114 := hl _
  set kd : List Nat := hash (ed448_calculate_k_inputs R av m ph) with hkde
  have hw6 : (writeAt w5 57 kd).length = 285 := by rw [length_writeAt (by omega)]; exact hw5
  set w6 : List Nat := writeAt w5 57 kd with hw6e
  have e7 : subBuf w6 57 114 = kd := by
    rw [hw6e, subBuf_writeAt_within (by omega) (by omega) (by omega)]
    simpa using subBuf_zero_length hkd
  have e8 : subBuf w6 171 114 = rd := by
    rw [hw6e, subBuf_writeAt_above (by omega) (by omega),
        hw5e, subBuf_writeAt_above (by omega) (by omega),
        hw4e, subBuf_writeAt_above (by simp) (by omega),
        hw3e, subBuf_writeAt_above (by omega) (by omega),
        hw2e, subBuf_writeAt_within (by omega) (by omega) (by omega)]
    simpa using subBuf_zero_length hrd
  have e9 : subBuf w6 0 57 = cl := by
    rw [hw6e, subBuf_writeAt_below (by omega) (by omega),
        hw5e, subBuf_writeAt_below (by omega) (by omega),
        hw4e, subBuf_writeAt_below (by omega) (by omega),
        hw3e, subBuf_writeAt_within (by omega) (by omega) (by omega)]
    simpa using subBuf_zero_length hcl
  rw [e7, e8, e9]
  have hS : (encodeLE57 ((decodeLE rd + decodeLE kd * decodeLE cl) % L)).length = 57 :=
    length_encodeLE57 _
  set S : List Nat := encodeLE57 ((decodeLE rd + decodeLE kd * decodeLE cl) % L) with hSe
  have hp2 : (writeAt p1 57 S).length = 114 := by rw [length_writeAt (by omega)]; exact hp1
  set p2 : List Nat := writeAt p1 57 S with hp2e
  have ea : subBuf p2 0 57 = R := by
    rw [hp2e, subBuf_writeAt_below (by omega) (by omega)]; exact e6
  have eb : subBuf p2 57 57 = S := by
    rw [hp2e, subBuf_writeAt_within (by omega) (by omega) (by omega)]
    simpa using subBuf_zero_length hS
  have e10 : subBuf p2 0 114 = R ++ S := by rw [subBuf_0_114, ea, eb]
  rw [e10]
  have e11 : writeAt sig 0 (R ++ S) = R ++ S :=
    writeAt_full (by simp [hs, hR, hS])
  rw [e11]
  simp only [specRenc, specSenc, specRdigest, specKdigest, specScalar, specAenc,
    ← hd1e, ← hrde, ← hRe, ← hcle, ← have2, ← hkde, ← hSe]

theorem create_pubkey_model (hash : List (List Nat) → List Nat)
    (hl : ∀ l, (hash l).length = 114)
    (sk pk dg : List Nat) (hpk : pk.length = 57) (hdg : dg.length = 114) :
    cracen_ed448_create_pubkey (modelPrims hash) sk pk dg =
      (SX_OK, specAenc hash sk, List.replicate 114 0) := by
  simp only [cracen_ed448_create_pubkey, modelPrims, sx_ed448_ptmult, SX_OK,
    ne_eq, not_true_eq_false, if_false, reduceIte]
  have hd1 : (hash [sk.take 57]).length = 114 := hl _
  set h1 : List Nat := hash [sk.take 57] with hd1e
  have hD1 : (writeAt dg 0 h1).length = 114 := by rw [length_writeAt (by omega)]; exact hdg
  set D1 : List Nat := writeAt dg 0 h1 with hD1e
  have e1 : subBuf D1 0 57 = subBuf h1 0 57 := by
    rw [hD1e, subBuf_writeAt_within (by omega) (by omega) (by omega)]
  rw [e1]
  have hcl : (decode_scalar_448 (subBuf h1 0 57)).length = 57 := by
    rw [length_decode_scalar_448]; simp [subBuf, hd1]
  set cl : List Nat := decode_scalar_448 (subBuf h1 0 57) with hcle
  have hD2 : (writeAt D1 0 cl).length = 114 := by rw [length_writeAt (by omega)]; exact hD1
  set D2 : List Nat := writeAt D1 0 cl with hD2e
  have hD3 : (writeAt D2 57 (List.replicate 57 0)).length = 114 := by
    rw [length_writeAt (by simp [hD2])]; exact hD2
  set D3 : List Nat := writeAt D2 57 (List.replicate 57 0) with hD3e
  have ea : subBuf D3 0 57 = cl := by
    rw [hD3e, subBuf_writeAt_below (by omega) (by omega), hD2e,
        subBuf_writeAt_within (by omega) (by omega) (by omega)]
    simpa using subBuf_zero_length hcl
  have eb : subBuf D3 57 57 = List.replicate 57 0 := by
    rw [hD3e, subBuf_writeAt_within (by omega) (by simp) (by omega)]
    simpa using subBuf_zero_length (by simp : (List.replicate 57 (0:Nat)).length = 57)
  have e2 : subBuf D3 0 114 = cl ++ List.replicate 57 0 := by
    rw [subBuf_0_114, ea, eb]
  rw [e2]
  have hav : (encodeLE57 (decodeLE (cl ++ List.replicate 57 0) % L)).length = 57 :=
    length_encodeLE57 _
  set av : List Nat := encodeLE57 (decodeLE (cl ++ List.replicate 57 0) % L) with have2
  have e3 : subBuf (writeAt D3 57 av) 57 57 = av := by
    rw [subBuf_writeAt_within (by omega) (by omega) (by omega)]
    simpa using subBuf_zero_length hav
  rw [e3]
  have e4 : writeAt pk 0 av = av := writeAt_full (by simp [hpk, hav])
  rw [e4]
  simp only [specAenc, specScalar, ← hd1e, ← hcle, ← have2]

theorem take_append_57 {a : List Nat} (b : List Nat) (h : a.length = 57) :
    (a ++ b).take 57 = a := by
  rw [← h, List.take_left]

theorem subBuf_append_57 {a b : List Nat} (ha : a.length = 57) (hb : b.length = 57) :
    subBuf (a ++ b) 57 57 = b := by
  have hd : (a ++ b).drop 57 = b := by rw [← ha, List.drop_left]
  rw [subBuf, hd]
  exact take_length_eq hb

theorem mod_combine (a b c n : Nat) :
    (a % n + b % n * (c % n)) % n = (a + b * c) % n := by
  calc (a % n + b % n * (c % n)) % n
      = (a % n % n + (b % n * (c % n)) % n) % n := by rw [← Nat.add_mod]
    _ = (a % n + b * c % n) % n := by
        rw [Nat.mod_mod_of_dvd a dvd_rfl, ← Nat.mul_mod]
    _ = (a + b * c) % n := by rw [← Nat.add_mod]

theorem verify_model_valid (hash : List (List Nat) → List Nat)
    (sk m : List Nat) (ph : Bool) :
    sx_ed448_verify (specKdigest hash sk m ph) (specAenc hash sk)
      (specSenc hash sk m ph) (specRenc hash sk m ph) = SX_OK := by
  have hb : ∀ x : Nat, x % L < 256 ^ 57 :=
    fun x => lt_of_lt_of_le (Nat.mod_lt x L_pos) (le_of_lt L_lt)
  have hS : decodeLE (specSenc hash sk m ph) =
      (decodeLE (specRdigest hash sk m ph) +
        decodeLE (specKdigest hash sk m ph) * decodeLE (specScalar hash sk)) % L := by
    rw [specSenc, decodeLE_encodeLE57 (hb _)]
  have hR : decodeLE (specRenc hash sk m ph) = decodeLE (specRdigest hash sk m ph) % L := by
    rw [specRenc, decodeLE_encodeLE57 (hb _)]
  have hA : decodeLE (specAenc hash sk) = decodeLE (specScalar hash sk) % L := by
    rw [specAenc, decodeLE_encodeLE57 (hb _), decodeLE_append, decodeLE_replicate_zero]
    simp
  rw [sx_ed448_verify, if_pos]
  rw [hS, hR, hA, Nat.mod_mod_of_dvd _ dvd_rfl, Nat.mod_mod_of_dvd _ dvd_rfl,
    Nat.mod_mod_of_dvd _ dvd_rfl, mod_combine]

theorem verify_internal_model (hash : List (List Nat) → List Nat)
    (pk m sig : List Nat) (ph : Bool) :
    ed448_verify_internal (modelPrims hash) pk m sig ph =
      sx_ed448_verify
        (hash (List.drop (if ph then 0 else 1) [dom4, sig.take 57, pk.take 57, m]))
        (pk.take 57) (subBuf sig 57 57) (sig.take 57) := by
  simp only [ed448_verify_internal, ed448_verify_hash_inputs, modelPrims, ne_eq,
    not_true_eq_false, if_false, reduceIte]

theorem roundtrip_core (hash : List (List Nat) → List Nat)
    (hl : ∀ l, (hash l).length = 114)
    (sk m pk0 dg0 sig0 w0 p0 : List Nat)
    (hpk : pk0.length = 57) (hdg : dg0.length = 114) (hsig : sig0.length = 114)
    (hw : w0.length = 285) (hp : p0.length = 114) :
    cracen_ed448_verify (modelPrims hash)
      (cracen_ed448_create_pubkey (modelPrims hash) sk pk0 dg0).2.1 m
      (cracen_ed448_sign (modelPrims hash) sk sig0 m w0 p0).2.1 = SX_OK := by
  rw [cracen_ed448_sign, sign_internal_model hash hl sk sig0 m false w0 p0 hsig hw hp,
      create_pubkey_model hash hl sk pk0 dg0 hpk hdg]
  have lR : (specRenc hash sk m false).length = 57 := by
    rw [specRenc]; exact length_encodeLE57 _
  have lS : (specSenc hash sk m false).length = 57 := by
    rw [specSenc]; exact length_encodeLE57 _
  have lA : (specAenc hash sk).length = 57 := by
    rw [specAenc]; exact length_encodeLE57 _
  have hkd : specKdigest hash sk m false =
      hash [specRenc hash sk m false, specAenc hash sk, m] := by
    rw [specKdigest, ed448_calculate_k_inputs]
    simp [take_length_eq lR, take_length_eq lA]
  show cracen_ed448_verify (modelPrims hash) (specAenc hash sk) m
      (specRenc hash sk m false ++ specSenc hash sk m false) = SX_OK
  rw [cracen_ed448_verify, verify_internal_model]
  rw [take_append_57 _ lR, subBuf_append_57 lR lS, take_length_eq lA]
  have hli : List.drop (if false = true then 0 else 1)
      [dom4, specRenc hash sk m false, specAenc hash sk, m] =
      [specRenc hash sk m false, specAenc hash sk, m] := rfl
  rw [hli, ← hkd]
  exact verify_model_valid hash sk m false

/-- Claim C2, counterexample.  The claim states that the `r`-hash input
list is `[dom4, prefix_half, message]` in Pure mode (prehash = false)
and `[dom4, message]` in the prehash modes.  The code does the
opposite on both counts: with `offset = prehash ? 0 : 1` over
`{dom4, prefix_half, message}`, Pure mode hashes
`[prefix_half, message]` (dom4 dropped, prefix kept) and the prehash
modes hash `[dom4, prefix_half, message]` (prefix not omitted).
Concrete instance: prefix_half = 57 bytes of 7, message = [9]. -/
theorem claim_C2_counterexample :
    ed448_calculate_r_inputs (List.replicate 57 7) [9] false ≠
      [dom4, List.replicate 57 7, [9]] ∧
    ed448_calculate_r_inputs (List.replicate 57 7) [9] false =
      [List.replicate 57 7, [9]] ∧
    ed448_calculate_r_inputs (List.replicate 57 7) [9] true ≠ [dom4, [9]] ∧
    ed448_calculate_r_inputs (List.replicate 57 7) [9] true =
      [dom4, List.replicate 57 7, [9]] := by
  refine ⟨?_, ?_, ?_, ?_⟩ <;> decide

/-- Claim C2 (amended): for every message and 57-byte prefix half, the
hash-input list used to derive the nonce digest `r` is
`[prefix_half, message]` (dom4 omitted) when the mode is Pure
(prehash = false), and `[dom4, prefix_half, message]` (prefix_half
included, dom4 first) when the mode is PrehashRaw or PrehashDigested
(prehash = true). -/
theorem claim_C2_amended (workmem message : List Nat) (h : workmem.length = 57) :
    ed448_calculate_r_inputs workmem message false = [workmem, message] ∧
    ed448_calculate_r_inputs workmem message true = [dom4, workmem, message] := by
  rw [ed448_calculate_r_inputs, ed448_calculate_r_inputs, take_length_eq h]
  exact ⟨rfl, rfl⟩

/-- Claim C2 (amended), witness at a concrete input. -/
theorem claim_C2_amended_witness :
    ed448_calculate_r_inputs (List.replicate 57 7) [9] false =
      [List.replicate 57 7, [9]] ∧
    ed448_calculate_r_inputs (List.replicate 57 7) [9] true =
      [dom4, List.replicate 57 7, [9]] :=
  claim_C2_amended (List.replicate 57 7) [9] (by simp)

/-- Claim C3: the challenge digest `k` in sign is computed (by the
SHAKE256-114 engine `P.hashAll`, the `sxhashalg_shake256_114` hash of
the code) over the input list selected from
`{dom4, R, A, message}` by `offset = prehash ? 0 : 1`: when prehash is
true all four inputs are hashed in that order; when prehash is false
`dom4` is dropped and exactly `[R, A, message]` is hashed.
(`ed448_calculate_k` receives `A` through its `workmem` argument.) -/
theorem claim_C3 (P : Ed448Prims) (point_r workmem message : List Nat)
    (hR : point_r.length = 57) (hA : workmem.length = 57) :
    ed448_calculate_k_inputs point_r workmem message true =
      [dom4, point_r, workmem, message] ∧
    ed448_calculate_k_inputs point_r workmem message false =
      [point_r, workmem, message] ∧
    ed448_calculate_k P workmem point_r message true =
      P.hashAll [dom4, point_r, workmem, message] ∧
    ed448_calculate_k P workmem point_r message false =
      P.hashAll [point_r, workmem, message] := by
  have h1 : ed448_calculate_k_inputs point_r workmem message true =
      [dom4, point_r, workmem, message] := by
    rw [ed448_calculate_k_inputs, take_length_eq hR, take_length_eq hA]
    rfl
  have h2 : ed448_calculate_k_inputs point_r workmem message false =
      [point_r, workmem, message] := by
    rw [ed448_calculate_k_inputs, take_length_eq hR, take_length_eq hA]
    rfl
  exact ⟨h1, h2, by rw [ed448_calculate_k, h1], by rw [ed448_calculate_k, h2]⟩

/-- Claim C3, witness at a concrete input. -/
theorem claim_C3_witness :
    ed448_calculate_k_inputs (List.replicate 57 1) (List.replicate 57 2) [3] true =
      [dom4, List.replicate 57 1, List.replicate 57 2, [3]] ∧
    ed448_calculate_k_inputs (List.replicate 57 1) (List.replicate 57 2) [3] false =
      [List.replicate 57 1, List.replicate 57 2, [3]] ∧
    ed448_calculate_k okPrims (List.replicate 57 2) (List.replicate 57 1) [3] true =
      okPrims.hashAll [dom4, List.replicate 57 1, List.replicate 57 2, [3]] ∧
    ed448_calculate_k okPrims (List.replicate 57 2) (List.replicate 57 1) [3] false =
      okPrims.hashAll [List.replicate 57 1, List.replicate 57 2, [3]] :=
  claim_C3 okPrims (List.replicate 57 1) (List.replicate 57 2) [3] (by simp) (by simp)

/-- Claim C4: the verify operation computes its challenge digest over
the input list `[dom4, R_enc, pubkey, message][offset:]` with the same
offset convention as sign (`offset = prehash ? 0 : 1`), so for equal
mode, message, public key and `R` encoding the hash-input list of
`ed448_verify_internal` is exactly the list `ed448_calculate_k` hashes
during signing, and hence (for any hash engine) the two challenge
digests coincide.  In `ed448_calculate_k_inputs` the signature buffer
plays the `point_r` role and the public key the `workmem` (A) role. -/
theorem claim_C4 (P : Ed448Prims) (pub_key message signature : List Nat)
    (prehash : Bool) :
    ed448_verify_hash_inputs pub_key message signature prehash =
      ed448_calculate_k_inputs signature pub_key message prehash ∧
    P.hashAll (ed448_verify_hash_inputs pub_key message signature prehash) =
      ed448_calculate_k P pub_key signature message prehash :=
  ⟨rfl, rfl⟩

/-- Claim C1, counterexample.  The claim states that on every return
path of the sign operation, including every early error return, the
secret scratch buffers are zeroed before returning.  Concrete
instance refuting it: with a primitives instance whose private-key
hash succeeds (digest = 114 bytes of 1) and whose next hash call (the
`r` computation) fails, `ed448_sign_internal` takes the early error
return at ed448.c line 73 — and the returned `workmem` still contains
the full 114-byte private-key digest instead of zeros. -/
theorem claim_C1_counterexample :
    (ed448_sign_internal failSecondHashPrims (List.replicate 57 0)
        (List.replicate 114 0) [] false (List.replicate 285 0)
        (List.replicate 114 0)).1 ≠ SX_OK ∧
    subBuf (ed448_sign_internal failSecondHashPrims (List.replicate 57 0)
        (List.replicate 114 0) [] false (List.replicate 285 0)
        (List.replicate 114 0)).2.2.1 0 114 = List.replicate 114 1 ∧
    (ed448_sign_internal failSecondHashPrims (List.replicate 57 0)
        (List.replicate 114 0) [] false (List.replicate 285 0)
        (List.replicate 114 0)).2.2.1 ≠ List.replicate 285 0 := by
  refine ⟨?_, ?_, ?_⟩ <;> decide

/-- Claim C1 (amended): the secret scratch buffers (the `workmem` of
`ed448_sign_internal`, the `digest` of `cracen_ed448_create_pubkey`)
are zeroed before return on the successful path only — whenever the
function returns `SX_OK`, the scratch buffer at the return point is
all zeros; the early error returns do not zero them (see the
counterexample). -/
theorem claim_C1_amended (P : Ed448Prims) (priv_key signature message : List Nat)
    (prehash : Bool) (workmem pnt_r pub_key digest : List Nat) :
    ((ed448_sign_internal P priv_key signature message prehash workmem pnt_r).1 = SX_OK →
      (ed448_sign_internal P priv_key signature message prehash workmem pnt_r).2.2.1 =
        List.replicate (5 * 57) 0) ∧
    ((cracen_ed448_create_pubkey P priv_key pub_key digest).1 = SX_OK →
      (cracen_ed448_create_pubkey P priv_key pub_key digest).2.2 =
        List.replicate 114 0) := by
  constructor
  · simp only [ed448_sign_internal, ed448_calculate_r, ed448_calculate_k]
    split_ifs <;> first
      | exact fun hok => absurd hok (by assumption)
      | exact fun _ => rfl
  · simp only [cracen_ed448_create_pubkey]
    split_ifs <;> first
      | exact fun hok => absurd hok (by assumption)
      | exact fun _ => rfl

/-- Claim C1 (amended), witness: on a concrete all-success run both
scratch buffers come back zeroed. -/
theorem claim_C1_amended_witness :
    (ed448_sign_internal okPrims (List.replicate 57 0) (List.replicate 114 0) []
        false (List.replicate 285 0) (List.replicate 114 0)).2.2.1 =
      List.replicate (5 * 57) 0 ∧
    (cracen_ed448_create_pubkey okPrims (List.replicate 57 0) (List.replicate 57 0)
        (List.replicate 114 0)).2.2 = List.replicate 114 0 :=
  ⟨(claim_C1_amended okPrims (List.replicate 57 0) (List.replicate 114 0) [] false
      (List.replicate 285 0) (List.replicate 114 0) (List.replicate 57 0)
      (List.replicate 114 0)).1 (by decide),
   (claim_C1_amended okPrims (List.replicate 57 0) (List.replicate 114 0) [] false
      (List.replicate 285 0) (List.replicate 114 0) (List.replicate 57 0)
      (List.replicate 114 0)).2 (by decide)⟩

/-- Claim C7: whenever any internal hash or curve primitive fails
during signing or public-key derivation (so the returned status is not
`SX_OK`), no output is written: the caller's signature buffer
(`ed448_sign_internal`, `cracen_ed448_sign`, `cracen_ed448ph_sign`)
and public-key buffer (`cracen_ed448_create_pubkey`) are returned
entirely unchanged. -/
theorem claim_C7 (P : Ed448Prims) (priv_key signature message : List Nat)
    (prehash is_message : Bool) (workmem pnt_r pub_key digest : List Nat) :
    ((ed448_sign_internal P priv_key signature message prehash workmem pnt_r).1 ≠ SX_OK →
      (ed448_sign_internal P priv_key signature message prehash workmem pnt_r).2.1 =
        signature) ∧
    ((cracen_ed448_sign P priv_key signature message workmem pnt_r).1 ≠ SX_OK →
      (cracen_ed448_sign P priv_key signature message workmem pnt_r).2.1 = signature) ∧
    ((cracen_ed448ph_sign P priv_key signature message is_message workmem pnt_r).1 ≠ SX_OK →
      (cracen_ed448ph_sign P priv_key signature message is_message workmem pnt_r).2.1 =
        signature) ∧
    ((cracen_ed448_create_pubkey P priv_key pub_key digest).1 ≠ SX_OK →
      (cracen_ed448_create_pubkey P priv_key pub_key digest).2.1 = pub_key) := by
  have hs : ∀ (msg : List Nat) (ph : Bool),
      (ed448_sign_internal P priv_key signature msg ph workmem pnt_r).1 ≠ SX_OK →
      (ed448_sign_internal P priv_key signature msg ph workmem pnt_r).2.1 = signature := by
    intro msg ph
    simp only [ed448_sign_internal, ed448_calculate_r, ed448_calculate_k]
    split_ifs <;> first
      | exact fun hok => absurd hok (by assumption)
      | exact fun _ => rfl
  refine ⟨hs message prehash, hs message false, ?_, ?_⟩
  · simp only [cracen_ed448ph_sign]
    split_ifs with h1 h2
    · intro _; rfl
    · exact hs _ true
    · exact hs _ true
  · simp only [cracen_ed448_create_pubkey]
    split_ifs <;> first
      | exact fun hok => absurd hok (by assumption)
      | exact fun _ => rfl

/-- Claim C7, witness: with the hash-fault primitives the sign call
fails and the caller's signature buffer is returned unchanged. -/
theorem claim_C7_witness :
    (cracen_ed448_sign failSecondHashPrims (List.replicate 57 0) (List.replicate 114 5)
        [] (List.replicate 285 0) (List.replicate 114 0)).1 ≠ SX_OK ∧
    (cracen_ed448_sign failSecondHashPrims (List.replicate 57 0) (List.replicate 114 5)
        [] (List.replicate 285 0) (List.replicate 114 0)).2.1 = List.replicate 114 5 :=
  ⟨by decide,
   (claim_C7 failSecondHashPrims (List.replicate 57 0) (List.replicate 114 5) []
      false false (List.replicate 285 0) (List.replicate 114 0) (List.replicate 57 0)
      (List.replicate 114 0)).2.1 (by decide)⟩

/-- Claim C6: for every seed and raw message, signing in
PrehashDigested mode (`is_message = false`) with the 114-byte SHAKE256
digest of the message as input produces the same result as signing the
raw message in PrehashRaw mode (`is_message = true`): if the hash
engine digests `message` to `hm`, then
`cracen_ed448ph_sign(.., message, true)` equals
`cracen_ed448ph_sign(.., hm, false)` — statuses, signature buffer and
scratch state all agree. -/
theorem claim_C6 (P : Ed448Prims) (priv_key signature message hm workmem pnt_r : List Nat)
    (h : P.hashAll [message] = (SX_OK, hm)) :
    cracen_ed448ph_sign P priv_key signature message true workmem pnt_r =
      cracen_ed448ph_sign P priv_key signature hm false workmem pnt_r := by
  simp [cracen_ed448ph_sign, h]

/-- Claim C6, witness: with the constant-digest primitives, prehashing
`[5]` externally and passing the digest with `is_message = false`
gives the same result as passing `[5]` with `is_message = true`. -/
theorem claim_C6_witness :
    cracen_ed448ph_sign okPrims (List.replicate 57 0) (List.replicate 114 0) [5] true
        (List.replicate 285 0) (List.replicate 114 0) =
      cracen_ed448ph_sign okPrims (List.replicate 57 0) (List.replicate 114 0)
        (List.replicate 114 1) false (List.replicate 285 0) (List.replicate 114 0) :=
  claim_C6 okPrims (List.replicate 57 0) (List.replicate 114 0) [5]
    (List.replicate 114 1) (List.replicate 285 0) (List.replicate 114 0) (by rfl)

/-- Claim C8: on every successful sign call over the spec-modelled
primitives, exactly 114 bytes are written to the signature buffer,
laid out as the 57-byte encoding of the point `R = [r]B`
(`specRenc`, the encoded fixed-base multiple of the raw nonce digest)
followed by the 57-byte encoding of `S = (r + k*s) mod L`
(`specSenc`, with `L` the group order). -/
theorem claim_C8 (hash : List (List Nat) → List Nat)
    (hl : ∀ l, (hash l).length = 114)
    (sk sig m w p : List Nat) (ph : Bool)
    (hs : sig.length = 114) (hw : w.length = 285) (hp : p.length = 114) :
    (ed448_sign_internal (modelPrims hash) sk sig m ph w p).1 = SX_OK ∧
    (ed448_sign_internal (modelPrims hash) sk sig m ph w p).2.1 =
      specRenc hash sk m ph ++ specSenc hash sk m ph ∧
    (specRenc hash sk m ph).length = 57 ∧
    (specSenc hash sk m ph).length = 57 ∧
    (ed448_sign_internal (modelPrims hash) sk sig m ph w p).2.1.length = 114 := by
  rw [sign_internal_model hash hl sk sig m ph w p hs hw hp]
  refine ⟨rfl, rfl, ?_, ?_, ?_⟩
  · rw [specRenc]; exact length_encodeLE57 _
  · rw [specSenc]; exact length_encodeLE57 _
  · show (specRenc hash sk m ph ++ specSenc hash sk m ph).length = 114
    rw [List.length_append, specRenc, specSenc, length_encodeLE57, length_encodeLE57]

/-- Claim C8, witness at a concrete input (constant hash engine,
zero seed, empty message). -/
theorem claim_C8_witness :
    (ed448_sign_internal (modelPrims (fun _ => List.replicate 114 1))
        (List.replicate 57 0) (List.replicate 114 0) [] false
        (List.replicate 285 0) (List.replicate 114 0)).1 = SX_OK ∧
    (ed448_sign_internal (modelPrims (fun _ => List.replicate 114 1))
        (List.replicate 57 0) (List.replicate 114 0) [] false
        (List.replicate 285 0) (List.replicate 114 0)).2.1 =
      specRenc (fun _ => List.replicate 114 1) (List.replicate 57 0) [] false ++
        specSenc (fun _ => List.replicate 114 1) (List.replicate 57 0) [] false ∧
    (specRenc (fun _ => List.replicate 114 1) (List.replicate 57 0) [] false).length = 57 ∧
    (specSenc (fun _ => List.replicate 114 1) (List.replicate 57 0) [] false).length = 57 ∧
    (ed448_sign_internal (modelPrims (fun _ => List.replicate 114 1))
        (List.replicate 57 0) (List.replicate 114 0) [] false
        (List.replicate 285 0) (List.replicate 114 0)).2.1.length = 114 :=
  claim_C8 (fun _ => List.replicate 114 1) (fun _ => by simp only [List.length_replicate])
    (List.replicate 57 0) (List.replicate 114 0) [] (List.replicate 285 0)
    (List.replicate 114 0) false (by simp only [List.length_replicate]) (by simp only [List.length_replicate]) (by simp only [List.length_replicate])

/-- Claim C9: pure-mode signing is deterministic and depends on no
input besides the seed and the message — two `cracen_ed448_sign`
calls with the same `(sk, m)` but different initial signature-buffer,
`workmem` and `pnt_r` contents return the same status and write the
same 114 signature bytes. -/
theorem claim_C9 (hash : List (List Nat) → List Nat)
    (hl : ∀ l, (hash l).length = 114) (sk m : List Nat)
    (sig1 w1 p1 sig2 w2 p2 : List Nat)
    (hs1 : sig1.length = 114) (hw1 : w1.length = 285) (hp1 : p1.length = 114)
    (hs2 : sig2.length = 114) (hw2 : w2.length = 285) (hp2 : p2.length = 114) :
    (cracen_ed448_sign (modelPrims hash) sk sig1 m w1 p1).1 =
      (cracen_ed448_sign (modelPrims hash) sk sig2 m w2 p2).1 ∧
    (cracen_ed448_sign (modelPrims hash) sk sig1 m w1 p1).2.1 =
      (cracen_ed448_sign (modelPrims hash) sk sig2 m w2 p2).2.1 := by
  rw [cracen_ed448_sign, cracen_ed448_sign,
    sign_internal_model hash hl sk sig1 m false w1 p1 hs1 hw1 hp1,
    sign_internal_model hash hl sk sig2 m false w2 p2 hs2 hw2 hp2]
  exact ⟨rfl, rfl⟩

/-- Claim C9, witness: two concrete calls with different scratch and
signature-buffer contents agree. -/
theorem claim_C9_witness :
    (cracen_ed448_sign (modelPrims (fun _ => List.replicate 114 1))
        (List.replicate 57 0) (List.replicate 114 0) [] (List.replicate 285 0)
        (List.replicate 114 0)).1 =
      (cracen_ed448_sign (modelPrims (fun _ => List.replicate 114 1))
        (List.replicate 57 0) (List.replicate 114 7) [] (List.replicate 285 9)
        (List.replicate 114 3)).1 ∧
    (cracen_ed448_sign (modelPrims (fun _ => List.replicate 114 1))
        (List.replicate 57 0) (List.replicate 114 0) [] (List.replicate 285 0)
        (List.replicate 114 0)).2.1 =
      (cracen_ed448_sign (modelPrims (fun _ => List.replicate 114 1))
        (List.replicate 57 0) (List.replicate 114 7) [] (List.replicate 285 9)
        (List.replicate 114 3)).2.1 :=
  claim_C9 (fun _ => List.replicate 114 1) (fun _ => by simp only [List.length_replicate])
    (List.replicate 57 0) [] (List.replicate 114 0) (List.replicate 285 0)
    (List.replicate 114 0) (List.replicate 114 7) (List.replicate 285 9)
    (List.replicate 114 3) (by simp only [List.length_replicate]) (by simp only [List.length_replicate]) (by simp only [List.length_replicate]) (by simp only [List.length_replicate]) (by simp only [List.length_replicate]) (by simp only [List.length_replicate])

/-- Claim C10: in prehash-digested mode (`is_message = false`),
`cracen_ed448ph_sign` and `cracen_ed448ph_verify` perform no
validation of the message length — for every message, of any length
(including lengths different from the 114-byte digest size), the
caller's buffer is passed directly to the internal sign/verify as the
prehashed message, and (over the spec-modelled primitives) the sign
call never fails on account of the length. -/
theorem claim_C10 (P : Ed448Prims) (hash : List (List Nat) → List Nat)
    (hl : ∀ l, (hash l).length = 114)
    (priv_key signature message pub_key sig2 workmem pnt_r : List Nat)
    (hs : signature.length = 114) (hw : workmem.length = 285)
    (hp : pnt_r.length = 114) :
    cracen_ed448ph_sign P priv_key signature message false workmem pnt_r =
      ed448_sign_internal P priv_key signature message true workmem pnt_r ∧
    cracen_ed448ph_verify P pub_key message sig2 false =
      ed448_verify_internal P pub_key message sig2 true ∧
    (cracen_ed448ph_sign (modelPrims hash) priv_key signature message false
      workmem pnt_r).1 = SX_OK := by
  refine ⟨rfl, rfl, ?_⟩
  have pass : ∀ P' : Ed448Prims,
      cracen_ed448ph_sign P' priv_key signature message false workmem pnt_r =
        ed448_sign_internal P' priv_key signature message true workmem pnt_r :=
    fun _ => rfl
  rw [pass, sign_internal_model hash hl priv_key signature message true workmem pnt_r hs hw hp]

/-- Claim C10, witness at a 3-byte "prehashed" message (length 3, not
114): the buffer is used directly and the sign call succeeds. -/
theorem claim_C10_witness :
    cracen_ed448ph_sign okPrims (List.replicate 57 0) (List.replicate 114 0) [1, 2, 3]
        false (List.replicate 285 0) (List.replicate 114 0) =
      ed448_sign_internal okPrims (List.replicate 57 0) (List.replicate 114 0) [1, 2, 3]
        true (List.replicate 285 0) (List.replicate 114 0) ∧
    cracen_ed448ph_verify okPrims (List.replicate 57 0) [1, 2, 3] (List.replicate 114 0)
        false =
      ed448_verify_internal okPrims (List.replicate 57 0) [1, 2, 3]
        (List.replicate 114 0) true ∧
    (cracen_ed448ph_sign (modelPrims (fun _ => List.replicate 114 1))
        (List.replicate 57 0) (List.replicate 114 0) [1, 2, 3] false
        (List.replicate 285 0) (List.replicate 114 0)).1 = SX_OK :=
  claim_C10 okPrims (fun _ => List.replicate 114 1) (fun _ => by simp only [List.length_replicate])
    (List.replicate 57 0) (List.replicate 114 0) [1, 2, 3] (List.replicate 57 0)
    (List.replicate 114 0) (List.replicate 285 0) (List.replicate 114 0)
    (by simp only [List.length_replicate]) (by simp only [List.length_replicate])
    (by simp only [List.length_replicate])

/-- Claim C5: for every 57-byte private-key seed and every message
(including the empty message), over the spec-modelled primitives,
verifying with the public key derived by `cracen_ed448_create_pubkey`
the signature produced by pure-mode `cracen_ed448_sign` succeeds
(`SX_OK`, the Valid outcome). -/
theorem claim_C5 (hash : List (List Nat) → List Nat)
    (hl : ∀ l, (hash l).length = 114)
    (sk m pk0 dg0 sig0 w0 p0 : List Nat) (_hsk : sk.length = 57)
    (hpk : pk0.length = 57) (hdg : dg0.length = 114) (hsig : sig0.length = 114)
    (hw : w0.length = 285) (hp : p0.length = 114) :
    cracen_ed448_verify (modelPrims hash)
      (cracen_ed448_create_pubkey (modelPrims hash) sk pk0 dg0).2.1 m
      (cracen_ed448_sign (modelPrims hash) sk sig0 m w0 p0).2.1 = SX_OK :=
  roundtrip_core hash hl sk m pk0 dg0 sig0 w0 p0 hpk hdg hsig hw hp

/-- Claim C5, witness: the round trip at a concrete seed and the empty
message. -/
theorem claim_C5_witness :
    cracen_ed448_verify (modelPrims (fun _ => List.replicate 114 1))
      (cracen_ed448_create_pubkey (modelPrims (fun _ => List.replicate 114 1))
        (List.replicate 57 4) (List.replicate 57 0) (List.replicate 114 0)).2.1 []
      (cracen_ed448_sign (modelPrims (fun _ => List.replicate 114 1))
        (List.replicate 57 4) (List.replicate 114 0) [] (List.replicate 285 0)
        (List.replicate 114 0)).2.1 = SX_OK :=
  claim_C5 (fun _ => List.replicate 114 1) (fun _ => by simp only [List.length_replicate])
    (List.replicate 57 4) [] (List.replicate 57 0) (List.replicate 114 0)
    (List.replicate 114 0) (List.replicate 285 0) (List.replicate 114 0)
    (by simp only [List.length_replicate]) (by simp only [List.length_replicate]) (by simp only [List.length_replicate]) (by simp only [List.length_replicate]) (by simp only [List.length_replicate]) (by simp only [List.length_replicate])
